import Mathlib

/-!
Verification of the big-fish spot-detection core
(`src/bigfish/detection/spot_detection.py`) against its specification.

Modelling conventions:
* Pixel intensities are exact rationals plus an explicit `nan` sentinel
  (`Px`), with numpy's comparison semantics: every ordered comparison or
  equality involving NaN is false.
* An n-dimensional array is a shape (list of extents, outermost first,
  i.e. numpy's C order) together with a total indexing function on
  coordinate lists; all operations only inspect in-range coordinates.
* External collaborators that the source delegates to are either modelled
  concretely when their semantics is pinned down (scipy's
  `maximum_filter`, whose reflect/constant padding reduces to taking the
  maximum over the window clipped to the array bounds) or taken as
  explicit function parameters when they are opaque interfaces
  (`log_filter`, `skimage.measure.label`, `regionprops`).
* Fallible Python behaviour (validation failures, dynamic type errors,
  rank mismatches) is embedded with `Except Err`.
-/

set_option maxHeartbeats 1000000

namespace BigFish

/-- Floating-point pixel values, reduced to exact rationals plus NaN. -/
inductive Px where
  | nan : Px
  | val (q : ℚ) : Px
deriving DecidableEq, Repr

/-- Numpy equality test: NaN compares unequal to everything, itself included. -/
def pxEq : Px → Px → Bool
  | Px.val a, Px.val b => decide (a = b)
  | _, _ => false

/-- Numpy `<=` test: false whenever either operand is NaN. -/
def pxLe : Px → Px → Bool
  | Px.val a, Px.val b => decide (a ≤ b)
  | _, _ => false

/-- Numpy strict `>` against a plain number: false on NaN. -/
def pxGtQ : Px → ℚ → Bool
  | Px.val a, t => decide (t < a)
  | Px.nan, _ => false

/-- Numpy strict `>` between two pixel values: false whenever NaN is involved. -/
def pxGtP : Px → Px → Bool
  | Px.val a, Px.val b => decide (b < a)
  | _, _ => false

/-- Numpy maximum of two values: NaN-propagating (as in `np.max` reductions). -/
def pxMax : Px → Px → Px
  | Px.val a, Px.val b => Px.val (max a b)
  | _, _ => Px.nan

/-- Multiplication by a plain rational scalar, NaN-propagating. -/
def pxScale (q : ℚ) : Px → Px
  | Px.val v => Px.val (q * v)
  | Px.nan => Px.nan

/-- NaN test. -/
def pxIsNan : Px → Bool
  | Px.nan => true
  | Px.val _ => false

/-- Maximum of a list of values as `np.max` computes it (NaN-propagating);
the empty case is unreachable in every use below. -/
def pxListMax : List Px → Px
  | [] => Px.nan
  | [a] => a
  | a :: b :: l => pxMax a (pxListMax (b :: l))

/-! ### Multi-dimensional arrays -/

/-- Cartesian product of a list of index ranges, in row-major (C) order:
the first axis varies slowest, exactly as numpy enumerates an array. -/
def prodLists : List (List ℕ) → List (List ℕ)
  | [] => [[]]
  | l :: ls => l.flatMap (fun a => (prodLists ls).map (fun c => a :: c))

/-- An n-dimensional array: a shape (extent per axis, outermost first) and a
total indexing function on coordinate lists.  Out-of-range coordinates are
never inspected by any operation below. -/
structure NDArr (α : Type) where
  shape : List ℕ
  val : List ℕ → α

/-- Number of dimensions (`ndarray.ndim`). -/
def NDArr.ndim {α : Type} (a : NDArr α) : ℕ := a.shape.length

/-- All in-range coordinates of a shape, in row-major order. -/
def gridIdx (shape : List ℕ) : List (List ℕ) := prodLists (shape.map List.range)

/-- In-range positions of one axis within distance `d` of centre `c`
(the window of the centred size `2*d+1` kernel, clipped to the bounds;
scipy's default reflect padding and its constant padding for boolean
dilation both reduce to this clipped window for max-filters). -/
def axisWin (n c d : ℕ) : List ℕ :=
  (List.range n).filter (fun q => decide (c ≤ q + d ∧ q ≤ c + d))

/-- The clipped hyper-cubic window of Chebyshev radius `d` around `c`. -/
def winIdx (shape c : List ℕ) (d : ℕ) : List (List ℕ) :=
  prodLists ((shape.zip c).map (fun p => axisWin p.1 p.2 d))

/-- Coordinates where a boolean array is true (`np.nonzero` + `np.column_stack`),
in row-major order. -/
def ndNonzero (m : NDArr Bool) : List (List ℕ) :=
  (gridIdx m.shape).filter (fun c => m.val c)

/-- Number of true entries of a boolean array (`mask.sum()`). -/
def countTrue (m : NDArr Bool) : ℕ := (ndNonzero m).length

/-- Whether any in-range pixel is NaN. -/
def ndHasNan (a : NDArr Px) : Bool := (gridIdx a.shape).any (fun c => pxIsNan (a.val c))

/-- Maximum over all pixels (`image.max()`), NaN-propagating, row-major fold. -/
def ndMax (a : NDArr Px) : Px := pxListMax ((gridIdx a.shape).map a.val)

/-- A coordinate list is in range for a shape (used on the specification side
of the theorems below). -/
def InRange (shape c : List ℕ) : Prop := List.Forall₂ (fun n x => x < n) shape c

/-- Two coordinate lists are within Chebyshev distance `d`
(specification side). -/
def ChebClose (d : ℕ) (c q : List ℕ) : Prop :=
  List.Forall₂ (fun x y => x ≤ y + d ∧ y ≤ x + d) c q

/-! ### Dynamically-typed Python values reaching the entry points -/

/-- Image dtypes relevant to the validation contracts. -/
inductive Dtype where
  | uint8 | uint16 | float32 | float64 | int64 | other
deriving DecidableEq, Repr

/-- An image array together with its dtype tag. -/
structure NDImage where
  dtype : Dtype
  arr : NDArr Px

/-- The `sigma` parameter: a scalar or a per-axis tuple. -/
inductive SigmaV where
  | scalar (q : ℚ)
  | perAxis (l : List ℚ)

/-- The `threshold` parameter: Python `int` or `float` (the SNR estimator
treats a `float` threshold as relative and rescales it by `image.max()`). -/
inductive ThreshV where
  | int (z : ℤ)
  | float (q : ℚ)

/-- Numeric value of a threshold as used by the direct comparisons. -/
def tVal : ThreshV → ℚ
  | ThreshV.int z => (z : ℚ)
  | ThreshV.float q => q

/-- The `radius` value `sqrt(ndim) * sigma` returned by `spots_thresholding`,
kept symbolically (`ndim` and `sigma` determine it); no claim inspects its
numeric value.  A tuple sigma yields a tuple radius, a scalar a scalar. -/
inductive RadiusV where
  | scalar (ndim : ℕ) (σ : ℚ)
  | perAxis (ndim : ℕ) (σs : List ℚ)

/-- What `compute_snr` passes to `from_threshold_to_snr` in the `mask`
position: a proper boolean mask, or the `(spots, radius)` pair returned by
`log_lm` (a dynamic typing accident of the source). -/
inductive MaskArg where
  | mask (m : NDArr Bool)
  | spotsRad (s : List (List ℕ)) (r : RadiusV)

/-- Python-level failures surfaced by the embedded functions. -/
inductive Err where
  | validationError   -- raised by the input validator `stack.check_array`
  | typeError         -- e.g. `tuple & ndarray`, `float[0]`
  | valueError        -- e.g. shape mismatch in `&`, `max` of empty array
  | runtimeError      -- scipy filter rank/size mismatch
  | indexError        -- tuple index out of range
deriving DecidableEq, Repr

/-- Modelled from the spec: `stack.check_array` (bigfish.stack, not in src/)
validates an image's ndim against a list of allowed values, its dtype against
a list of allowed dtypes, and — unless `allow_nan` — the absence of NaN.  The
entry points below fail fast with `Err.validationError` when it is false. -/
def check_array (img : NDImage) (ndims : List ℕ) (dts : List Dtype) (allow_nan : Bool) : Bool :=
  decide (img.arr.ndim ∈ ndims) && decide (img.dtype ∈ dts) && (allow_nan || ! ndHasNan img.arr)

/-- Modelled from the spec: the dtypes every detection entry point accepts. -/
def suppDtypes : List Dtype := [Dtype.uint8, Dtype.uint16, Dtype.float32, Dtype.float64]

/-! ### Local-maximum detection (`local_maximum_detection`) -/

/-- Core of `local_maximum_detection`: the mask of pixels whose value equals
the output of the centred maximum filter of kernel size `2*d+1`
(`ndi.maximum_filter` with default reflect padding, which reduces to the
maximum over the clipped window). -/
def ndLocalMax (a : NDArr Px) (d : ℕ) : NDArr Bool :=
  ⟨a.shape, fun c => pxEq (a.val c) (pxListMax ((winIdx a.shape c d).map a.val))⟩

/-- Specification side of claim C8: the mask has the image's shape; an
in-range pixel is marked iff its value is `≥` the value of every in-range
pixel within Chebyshev distance `minimum_distance` (reflexive comparison, so
equal-valued plateaus are entirely marked); and `minimum_distance = 0` marks
every pixel. -/
def IsLocalMaxMask (a : NDArr Px) (d : ℕ) (m : NDArr Bool) : Prop :=
  m.shape = a.shape ∧
  (∀ c, InRange a.shape c →
    (m.val c = true ↔
      ∀ q, InRange a.shape q → ChebClose d c q → pxLe (a.val q) (a.val c) = true)) ∧
  (d = 0 → ∀ c, InRange a.shape c → m.val c = true)

/-- Embedding of `local_maximum_detection(image, minimum_distance)`: validates the image
(ndim 2 or 3, supported dtype, no NaN) and returns the local-maximum mask. -/
def local_maximum_detection (img : NDImage) (d : ℕ) : Except Err (NDArr Bool) :=
  if check_array img [2, 3] suppDtypes false then Except.ok (ndLocalMax img.arr d)
  else Except.error Err.validationError

/-! ### Threshold and coordinate extraction (`spots_thresholding`) -/

/-- The combined mask `mask_lm & (image > threshold)` (strict comparison,
false on NaN pixels). -/
def combineMask (m : NDArr Bool) (a : NDArr Px) (t : ℚ) : NDArr Bool :=
  ⟨m.shape, fun c => m.val c && pxGtQ (a.val c) t⟩

/-- Embedding of `spots_thresholding(image, sigma, mask_lm, threshold)`: validates image
and mask, combines the mask with the strict intensity threshold, and returns
the spot coordinates (row-major), the symbolic radius and the final mask.
The source relies on numpy to align the two arrays; the embedding requires
equal shapes and treats a mismatch as the broadcasting failure. -/
def spots_thresholding (img : NDImage) (σ : SigmaV) (mask : NDArr Bool) (t : ThreshV) :
    Except Err (List (List ℕ) × RadiusV × NDArr Bool) :=
  if ¬ (check_array img [2, 3] suppDtypes false = true) then Except.error Err.validationError
  else if ¬ (mask.ndim ∈ [2, 3]) then Except.error Err.validationError
  else if ¬ (mask.shape = img.arr.shape) then Except.error Err.valueError
  else
    let m2 := combineMask mask img.arr (tVal t)
    let radius := match σ with
      | SigmaV.scalar q => RadiusV.scalar img.arr.ndim q
      | SigmaV.perAxis l => RadiusV.perAxis img.arr.ndim l
    Except.ok (ndNonzero m2, radius, m2)

/-! ### LoG pipeline (`log_lm`, `log_cc`, `get_cc`) -/

/-- Embedding of `log_lm(image, sigma, threshold, minimum_distance)`: validate, apply the
external LoG filter `logF` (`stack.log_filter`, an opaque shape-preserving
collaborator passed explicitly), detect local maxima on the filtered image
and threshold on the original image. -/
def log_lm (logF : SigmaV → NDImage → NDImage) (img : NDImage) (σ : SigmaV)
    (t : ThreshV) (d : ℕ) : Except Err (List (List ℕ) × RadiusV) :=
  if ¬ (check_array img [2, 3] suppDtypes false = true) then Except.error Err.validationError
  else
    (local_maximum_detection (logF σ img) d).bind (fun mask =>
      (spots_thresholding img σ mask t).map (fun out => (out.1, out.2.1)))

/-- Embedding of `get_cc(image, threshold)`: validates (NaN explicitly allowed), builds the
strict threshold mask and labels connected components through the external
labeller `lblF` (`skimage.measure.label`, an opaque collaborator). -/
def get_cc (lblF : NDArr Bool → NDArr ℤ) (img : NDImage) (t : ThreshV) :
    Except Err (NDArr ℤ) :=
  if check_array img [2, 3] suppDtypes true then
    Except.ok (lblF ⟨img.arr.shape, fun c => pxGtQ (img.arr.val c) (tVal t)⟩)
  else Except.error Err.validationError

/-- Embedding of `log_cc(image, sigma, threshold)`: validates (no NaN), applies the LoG
filter, then delegates to `get_cc` on the filtered image. -/
def log_cc (logF : SigmaV → NDImage → NDImage) (lblF : NDArr Bool → NDArr ℤ)
    (img : NDImage) (σ : SigmaV) (t : ThreshV) : Except Err (NDArr ℤ) :=
  if ¬ (check_array img [2, 3] suppDtypes false = true) then Except.error Err.validationError
  else get_cc lblF (logF σ img) t

/-! ### Region filtering (`filter_cc`) -/

/-- Properties of one labelled region as delivered by the external extractor
`skimage.measure.regionprops` (area, max intensity against the intensity
image, bounding box unpacked as `(min_z, min_y, min_x, max_z, max_y, max_x)`
exactly as the source destructures it). -/
structure Region where
  area : ℕ
  max_intensity : Px
  bbox : (ℤ × ℤ × ℤ) × (ℤ × ℤ × ℤ)
deriving DecidableEq, Repr

/-- Numpy boolean-mask indexing `l[m]`: keep the entries whose mask bit is
true (the two lists are index-aligned). -/
def boolFilter {α : Type} (l : List α) (m : List Bool) : List α :=
  ((l.zip m).filter (fun p => p.2)).map (fun p => p.1)

/-- The source's bounding-box containment test, inclusive on all six sides:
`min_z <= z <= max_z` and likewise for y and x, on the values exactly as the
extractor delivered them. -/
def inBoxB (b : (ℤ × ℤ × ℤ) × (ℤ × ℤ × ℤ)) (s : ℤ × ℤ × ℤ) : Bool :=
  decide (b.1.1 ≤ s.1 ∧ s.1 ≤ b.2.1 ∧ b.1.2.1 ≤ s.2.1 ∧ s.2.1 ≤ b.2.2.1 ∧
          b.1.2.2 ≤ s.2.2 ∧ s.2.2 ≤ b.2.2.2)

/-- Number of spots inside a bounding box (the per-region count loop). -/
def countIn (spots : List (ℤ × ℤ × ℤ)) (b : (ℤ × ℤ × ℤ) × (ℤ × ℤ × ℤ)) : ℕ :=
  (spots.filter (fun s => inBoxB b s)).length

/-- Ascending insertion into a sorted list of rationals. -/
def insertQ (x : ℚ) : List ℚ → List ℚ
  | [] => [x]
  | y :: l => if x ≤ y then x :: y :: l else y :: insertQ x l

/-- Ascending sort of a list of rationals. -/
def sortQ : List ℚ → List ℚ
  | [] => []
  | x :: l => insertQ x (sortQ l)

/-- Embedding of `np.median`: NaN if any entry is NaN (numpy propagates NaN), otherwise
the middle of the sorted values, averaging the two middle entries for an
even count.  The empty case (NaN in numpy) never arises below. -/
def npMedian (l : List Px) : Px :=
  if l.any pxIsNan then Px.nan
  else
    let qs := sortQ (l.filterMap (fun p => match p with | Px.val q => some q | Px.nan => none))
    match qs.length with
    | 0 => Px.nan
    | Nat.succ _ =>
      if qs.length % 2 = 1 then Px.val (qs.getD (qs.length / 2) 0)
      else Px.val ((qs.getD (qs.length / 2 - 1) 0 + qs.getD (qs.length / 2) 0) / 2)

/-- Body of `filter_cc` after validation, mirroring the source's parallel
numpy arrays: feature extraction, the hard `area > min_area` prefilter with
its empty early return, the per-region spot counts, the median-intensity
criterion over the surviving regions, the OR combination, and the final
spots-outside filter over the kept bounding boxes.  (The `regions.size == 0`
re-check before that final loop is dead code: the surviving list is
non-empty there, so an all-rejected OR criterion falls through with an empty
`bbox` list and every spot ends up outside.) -/
def filter_cc_core (regions : List Region) (spots : List (ℤ × ℤ × ℤ))
    (min_area min_nb_spots : ℤ) (fac : ℚ) : List Region × List (ℤ × ℤ × ℤ) :=
  let area := regions.map (fun r => r.area)
  let intensity := regions.map (fun r => r.max_intensity)
  let bbox := regions.map (fun r => r.bbox)
  let big_area := area.map (fun (a : ℕ) => decide (min_area < (a : ℤ)))
  let regions1 := boolFilter regions big_area
  let intensity1 := boolFilter intensity big_area
  let bbox1 := boolFilter bbox big_area
  if regions1.length = 0 then ([], [])
  else
    let nb_spots_in := bbox1.map (fun b => countIn spots b)
    let multiple_spots := nb_spots_in.map (fun (n : ℕ) => decide (min_nb_spots < (n : ℤ)))
    let med := npMedian intensity1
    let high_intensity := intensity1.map (fun v => pxGtP v (pxScale fac med))
    let mask := List.zipWith (fun a b => a || b) multiple_spots high_intensity
    let regions_filtered := boolFilter regions1 mask
    let bbox2 := boolFilter bbox1 mask
    let spots_out := spots.filter (fun s => bbox2.all (fun b => ! inBoxB b s))
    (regions_filtered, spots_out)

/-- Embedding of `filter_cc(image, cc, spots, min_area, min_nb_spots, min_intensity_factor)`:
validates image (NaN allowed), labelled image and spots, extracts region
properties through the external extractor `rpF` (`regionprops`, an opaque
collaborator receiving the labelled image and the intensity image) and runs
the region filter. -/
def filter_cc (rpF : NDArr ℤ → NDArr Px → List Region) (img : NDImage) (cc : NDArr ℤ)
    (spots : List (ℤ × ℤ × ℤ)) (min_area min_nb_spots : ℤ) (fac : ℚ) :
    Except Err (List Region × List (ℤ × ℤ × ℤ)) :=
  if ¬ (check_array img [2, 3] suppDtypes true = true) then Except.error Err.validationError
  else if ¬ (cc.ndim ∈ [2, 3]) then Except.error Err.validationError
  else Except.ok (filter_cc_core (rpF cc img.arr) spots min_area min_nb_spots fac)

/-! ### Signal-to-noise estimation (`from_threshold_to_snr`, `compute_snr`) -/

/-- The value appended to `l_snr` for one spot:
`np.nanmean(local_signal) / np.nanstd(local_noise)`.  `nan` stands for NaN
(boundary spots, all-NaN windows, 0/0); `posInf`/`negInf` for `±inf`
(non-zero mean over zero noise deviation); `finite m v` for the finite
quotient `m / sqrt v` with `m` the nanmean of the signal window and `v > 0`
the population nanvariance of the noise window (kept symbolically: the pair
determines the float and no claim inspects the numeric quotient). -/
inductive SnrVal where
  | nan
  | posInf
  | negInf
  | finite (m v : ℚ)
deriving DecidableEq, Repr

/-- Entries of a window that are not NaN. -/
def nonNanL (l : List Px) : List ℚ :=
  l.filterMap (fun p => match p with | Px.val q => some q | Px.nan => none)

/-- Embedding of `np.nanmean`: mean of the non-NaN entries, NaN when there are none. -/
def nanmeanL (l : List Px) : Px :=
  let v := nonNanL l
  if v.length = 0 then Px.nan else Px.val (v.sum / (v.length : ℚ))

/-- Population variance of the non-NaN entries (the square of `np.nanstd`
with its default `ddof=0`), NaN when there are none. -/
def nanvarL (l : List Px) : Px :=
  let v := nonNanL l
  if v.length = 0 then Px.nan
  else
    let m := v.sum / (v.length : ℚ)
    Px.val ((v.map (fun q => (q - m) ^ 2)).sum / (v.length : ℚ))

/-- Combine the signal nanmean and the noise nanvariance into the appended
SNR value, with IEEE semantics for the division by `sqrt v`: NaN if either
statistic is NaN or both mean and deviation are zero, `±inf` for a non-zero
mean over a zero deviation, a finite quotient otherwise. -/
def mkSnr : Px → Px → SnrVal
  | Px.nan, _ => SnrVal.nan
  | Px.val _, Px.nan => SnrVal.nan
  | Px.val m, Px.val v =>
    if v = 0 then
      if 0 < m then SnrVal.posInf else if m < 0 then SnrVal.negInf else SnrVal.nan
    else SnrVal.finite m v

/-- In-range indices of one axis inside the slice `[c - r, c + r]` with an
integer radius.  A negative radius yields the empty slice, matching Python's
`a[c - r : c + r + 1]` for `0 ≤ c + r < c - r`.  (For `0 ≤ r ≤ c` this is
exactly the untruncated slice; the spots this is applied to always satisfy
`c ≥ noise_radius`, so signal slices only avoid Python's negative-index
wrap-around when the signal radius is at most the noise radius, the only
regime the claims speak about.) -/
def axisWinZ (n c : ℕ) (r : ℤ) : List ℕ :=
  (List.range n).filter (fun q => decide ((c : ℤ) - r ≤ (q : ℤ) ∧ (q : ℤ) ≤ (c : ℤ) + r))

/-- Row-major triple window of per-axis integer radii `rz, ryx, ryx` around
`(z, y, x)`, clipped to the volume. -/
def win3 (nz ny nx z y x : ℕ) (rz ryx : ℤ) : List (ℕ × ℕ × ℕ) :=
  (axisWinZ nz z rz).flatMap (fun z2 =>
    (axisWinZ ny y ryx).flatMap (fun y2 =>
      (axisWinZ nx x ryx).map (fun x2 => (z2, y2, x2))))

/-- The boundary test of the per-spot loop:
`z_neigh <= z <= max_z - z_neigh - 1` on each axis (z with `zN`, y and x
with `yxN`), i.e. the spot is at least the noise radius away from every
volume boundary. -/
def bOKb (nz ny nx : ℕ) (zN yxN : ℤ) (z y x : ℕ) : Bool :=
  decide (zN ≤ (z : ℤ) ∧ (z : ℤ) + zN ≤ (nz : ℤ) - 1 ∧
          yxN ≤ (y : ℤ) ∧ (y : ℤ) + yxN ≤ (ny : ℤ) - 1 ∧
          yxN ≤ (x : ℤ) ∧ (x : ℤ) + yxN ≤ (nx : ℤ) - 1)

/-- The dilated exclusion mask at one pixel: `ndi.maximum_filter` of the
boolean spot mask with the box kernel `(2*zR+1, 2*yxR+1, 2*yxR+1)` and
constant (false) padding, i.e. true iff some in-range pixel of the clipped
window carries the mask. -/
def dilB (fm : List ℕ → Bool) (nz ny nx : ℕ) (zR yxR : ℤ) (z y x : ℕ) : Bool :=
  (win3 nz ny nx z y x zR yxR).any (fun q => fm [q.1, q.2.1, q.2.2])

/-- The signal window values: the slice of the original image of half-width
`zR` (z) and `yxR` (y, x) around the spot. -/
def signalVals (f : List ℕ → Px) (nz ny nx z y x : ℕ) (zR yxR : ℤ) : List Px :=
  (win3 nz ny nx z y x zR yxR).map (fun q => f [q.1, q.2.1, q.2.2])

/-- The noise window values: the slice of half-width `zN`/`yxN` of the noise
volume (the image with every dilated-mask pixel set to NaN), with the central
block of half-width `zR`/`yxR` additionally blanked to NaN. -/
def noiseVals (f : List ℕ → Px) (fm : List ℕ → Bool) (nz ny nx z y x : ℕ)
    (zR yxR zN yxN : ℤ) : List Px :=
  (win3 nz ny nx z y x zN yxN).map (fun q =>
    if ((z : ℤ) - zR ≤ (q.1 : ℤ) ∧ (q.1 : ℤ) ≤ (z : ℤ) + zR ∧
        (y : ℤ) - yxR ≤ (q.2.1 : ℤ) ∧ (q.2.1 : ℤ) ≤ (y : ℤ) + yxR ∧
        (x : ℤ) - yxR ≤ (q.2.2 : ℤ) ∧ (q.2.2 : ℤ) ≤ (x : ℤ) + yxR) then Px.nan
    else if dilB fm nz ny nx zR yxR q.1 q.2.1 q.2.2 then Px.nan
    else f [q.1, q.2.1, q.2.2])

/-- One iteration of the per-spot loop: NaN for a spot strictly closer than
the noise radius to some volume boundary, otherwise the SNR statistic of the
signal and noise windows.  (The catch-all branch is unreachable: every
coordinate produced by `ndNonzero` on a 3-d mask has exactly three
components.) -/
def snrOne (f : List ℕ → Px) (fm : List ℕ → Bool) (nz ny nx : ℕ)
    (zR yxR zN yxN : ℤ) : List ℕ → SnrVal
  | [z, y, x] =>
    if bOKb nz ny nx zN yxN z y x then
      mkSnr (nanmeanL (signalVals f nz ny nx z y x zR yxR))
            (nanvarL (noiseVals f fm nz ny nx z y x zR yxR zN yxN))
    else SnrVal.nan
  | _ => SnrVal.nan

/-- Lines 434–488 of the source given the combined mask and the four integer
radii: spot coordinates are taken from the mask before dilation, and the
result list carries one entry per spot, in coordinate order. -/
def snrCore (a : NDArr Px) (m2 : NDArr Bool) (nz ny nx : ℕ)
    (zR yxR zN yxN : ℤ) : List SnrVal :=
  (ndNonzero m2).map (snrOne a.val m2.val nz ny nx zR yxR zN yxN)

/-- Python `int()` applied to a real: truncation toward zero. -/
noncomputable def pyInt (x : ℝ) : ℤ := if 0 ≤ x then ⌊x⌋ else ⌈x⌉

/-- Lines 439–442: the four radii
`int(sqrt(ndim) * sigma[0])`, `int(sqrt(ndim) * sigma[1])`,
`int(sqrt(ndim) * sigma[0] * neighbor_factor)`,
`int(sqrt(ndim) * sigma[1] * neighbor_factor)` — truncating `int()` casts,
z from `sigma[0]`, y and x sharing `sigma[1]`. -/
noncomputable def snrRadii (ndim : ℕ) (s0 s1 fac : ℚ) : ℤ × ℤ × ℤ × ℤ :=
  let s : ℝ := Real.sqrt (ndim : ℝ)
  (pyInt (s * (s0 : ℝ)), pyInt (s * (s1 : ℝ)),
   pyInt (s * (s0 : ℝ) * (fac : ℝ)), pyInt (s * (s1 : ℝ) * (fac : ℝ)))

/-- Embedding of `from_threshold_to_snr(image, sigma, mask, threshold, neighbor_factor)`.
The source performs no input validation; its steps in order are: resolve a
`float` threshold as relative (`threshold *= image.max()`, a ValueError on an
empty array); combine the mask argument with `image > threshold` (a dynamic
failure when the argument is not a mask or the shapes mismatch); return `[]`
when no spot survives — before any 3-d- or tuple-sigma-specific operation;
index `sigma[0]`/`sigma[1]` (TypeError on a scalar, IndexError on a short
tuple); compute the radii; dilate (scipy rejects the 3-component kernel
unless the image is 3-d, and a non-positive kernel size); then run the
per-spot loop. -/
noncomputable def from_threshold_to_snr (img : NDImage) (σ : SigmaV) (maskArg : MaskArg)
    (t : ThreshV) (fac : ℚ) : Except Err (List SnrVal) :=
  let tvE : Except Err Px := match t with
    | ThreshV.int z => Except.ok (Px.val (z : ℚ))
    | ThreshV.float q =>
      if gridIdx img.arr.shape = [] then Except.error Err.valueError
      else Except.ok (pxScale q (ndMax img.arr))
  tvE.bind (fun tv =>
    match maskArg with
    | MaskArg.spotsRad _ _ => Except.error Err.typeError
    | MaskArg.mask m =>
      if ¬ (m.shape = img.arr.shape) then Except.error Err.valueError
      else
        let m2 : NDArr Bool := ⟨m.shape, fun c => m.val c && pxGtP (img.arr.val c) tv⟩
        if countTrue m2 = 0 then Except.ok []
        else
          match σ with
          | SigmaV.scalar _ => Except.error Err.typeError
          | SigmaV.perAxis l =>
            match l with
            | s0 :: s1 :: _ =>
              let r := snrRadii img.arr.ndim s0 s1 fac
              match img.arr.shape with
              | [nz, ny, nx] =>
                if r.1 < 0 ∨ r.2.1 < 0 then Except.error Err.runtimeError
                else Except.ok (snrCore img.arr m2 nz ny nx r.1 r.2.1 r.2.2.1 r.2.2.2)
              | _ => Except.error Err.runtimeError
            | _ => Except.error Err.indexError)

/-- Embedding of `compute_snr(image, sigma, minimum_distance, threshold_signal_detection,
neighbor_factor)`: the source calls
`log_lm(image, sigma, minimum_distance)` — so `minimum_distance` lands in
`log_lm`'s positional `threshold` parameter and `log_lm`'s own
`minimum_distance` keeps its default 1 — and then feeds `log_lm`'s
`(spots, radius)` return value to `from_threshold_to_snr` as the `mask`. -/
noncomputable def compute_snr (logF : SigmaV → NDImage → NDImage) (img : NDImage)
    (σ : SigmaV) (d : ℕ) (t : ThreshV) (fac : ℚ) : Except Err (List SnrVal) :=
  (log_lm logF img σ (ThreshV.int (d : ℤ)) 1).bind (fun sr =>
    from_threshold_to_snr img σ (MaskArg.spotsRad sr.1 sr.2) t fac)

/-! ### Concrete inputs used by the witnesses and counterexamples -/

/-- A 1×1×1 float64 image whose single pixel is 5. -/
def img111 : NDImage := ⟨Dtype.float64, ⟨[1, 1, 1], fun _ => Px.val 5⟩⟩

/-- A 1×1×1 float64 image whose single pixel is NaN. -/
def imgNaN : NDImage := ⟨Dtype.float64, ⟨[1, 1, 1], fun _ => Px.nan⟩⟩

/-- A 2×2 image with an unsupported dtype (int64). -/
def imgBad : NDImage := ⟨Dtype.int64, ⟨[2, 2], fun _ => Px.val 1⟩⟩

/-- A 2×2 float64 image with four distinct values. -/
def img22 : NDImage :=
  ⟨Dtype.float64,
   ⟨[2, 2], fun c => Px.val (match c with
     | [0, 0] => 5 | [0, 1] => 3 | [1, 0] => 2 | [1, 1] => 7 | _ => 0)⟩⟩

/-- An all-true 1×1×1 boolean mask. -/
def mTrue3 : NDArr Bool := ⟨[1, 1, 1], fun _ => true⟩

/-- An all-false 1×1×1 boolean mask. -/
def mFalse3 : NDArr Bool := ⟨[1, 1, 1], fun _ => false⟩

/-- An all-true 2×2 boolean mask. -/
def mTrue22 : NDArr Bool := ⟨[2, 2], fun _ => true⟩

/-- A constant 1×1×1 image array with value 7. -/
def a7 : NDArr Px := ⟨[1, 1, 1], fun _ => Px.val 7⟩

/-- A region of area 1 (below every area threshold used here). -/
def regSmall : Region := ⟨1, Px.val 10, ((0, 0, 0), (4, 4, 4))⟩

/-- A region of area 2. -/
def regSmall2 : Region := ⟨2, Px.val 3, ((0, 0, 0), (4, 4, 4))⟩

/-- A region of area 9 with bounding box `(0,0,0)–(2,2,2)`. -/
def regBig : Region := ⟨9, Px.val 5, ((0, 0, 0), (2, 2, 2))⟩

end BigFish

namespace BigFish

/-! ## Helper lemmas -/

theorem mem_prodLists {ls : List (List ℕ)} {c : List ℕ} :
    c ∈ prodLists ls ↔ List.Forall₂ (fun l x => x ∈ l) ls c := by
  induction ls generalizing c with
  | nil =>
    simp only [prodLists, List.mem_singleton, List.forall₂_nil_left_iff]
  | cons l ls ih =>
    simp only [prodLists, List.mem_flatMap, List.mem_map, List.forall₂_cons_left_iff]
    constructor
    · rintro ⟨a, ha, d, hd, rfl⟩
      exact ⟨a, d, ha, ih.mp hd, rfl⟩
    · rintro ⟨b, l₂, hb, h₂, rfl⟩
      exact ⟨b, hb, l₂, ih.mpr h₂, rfl⟩

theorem mem_gridIdx {shape c : List ℕ} : c ∈ gridIdx shape ↔ InRange shape c := by
  unfold gridIdx InRange
  rw [mem_prodLists, List.forall₂_map_left_iff]
  constructor
  · exact fun h => h.imp (fun a b hab => List.mem_range.mp hab)
  · exact fun h => h.imp (fun a b hab => List.mem_range.mpr hab)

theorem mem_axisWin {n c d q : ℕ} : q ∈ axisWin n c d ↔ q < n ∧ (c ≤ q + d ∧ q ≤ c + d) := by
  unfold axisWin
  rw [List.mem_filter, List.mem_range, decide_eq_true_iff]

theorem mem_winIdx : ∀ (shape c : List ℕ) (d : ℕ) (q : List ℕ),
    c.length = shape.length →
    (q ∈ winIdx shape c d ↔ (InRange shape q ∧ ChebClose d c q)) := by
  intro shape
  induction shape with
  | nil =>
    intro c d q hc
    have hc0 : c = [] := List.length_eq_zero.mp hc
    subst hc0
    simp only [winIdx, List.zip_nil_left, List.map_nil, prodLists, List.mem_singleton,
      InRange, ChebClose, List.forall₂_nil_left_iff]
    constructor
    · rintro rfl; exact ⟨rfl, rfl⟩
    · rintro ⟨rfl, _⟩; rfl
  | cons n sh ih =>
    intro c d q hc
    match c with
    | a :: c2 =>
      have hc2 : c2.length = sh.length := by simpa using hc
      simp only [winIdx, List.zip_cons_cons, List.map_cons, prodLists, List.mem_flatMap,
        List.mem_map] at *
      constructor
      · rintro ⟨x, hx, q2, hq2, rfl⟩
        have hx2 := mem_axisWin.mp hx
        have h2 := (ih c2 d q2 hc2).mp hq2
        refine ⟨?_, ?_⟩
        · exact List.Forall₂.cons hx2.1 h2.1
        · exact List.Forall₂.cons hx2.2 h2.2
      · rintro ⟨h1, h2⟩
        rcases List.forall₂_cons_left_iff.mp h1 with ⟨b, q2, hb, hq2, rfl⟩
        have h2' : List.Forall₂ (fun x y => x ≤ y + d ∧ y ≤ x + d) (a :: c2) (b :: q2) := h2
        rw [List.forall₂_cons] at h2'
        exact ⟨b, mem_axisWin.mpr ⟨hb, h2'.1⟩, q2, (ih c2 d q2 hc2).mpr ⟨hq2, h2'.2⟩, rfl⟩

theorem chebClose_zero_eq : ∀ {c q : List ℕ}, ChebClose 0 c q → c = q := by
  intro c q h
  induction h with
  | nil => rfl
  | cons h1 _ ih =>
    rcases h1 with ⟨ha, hb⟩
    rw [Nat.add_zero] at ha hb
    rw [Nat.le_antisymm ha hb, ih]

theorem pxListMax_spec : ∀ (l : List Px), l ≠ [] → (∀ p ∈ l, p ≠ Px.nan) →
    ∃ M, pxListMax l = Px.val M ∧ Px.val M ∈ l ∧ ∀ q, Px.val q ∈ l → q ≤ M := by
  intro l
  induction l with
  | nil => intro h; exact absurd rfl h
  | cons a t ih =>
    intro _ hnn
    match a, t with
    | Px.nan, t => exact absurd rfl (hnn Px.nan (List.mem_cons_self _ _))
    | Px.val qa, [] =>
      refine ⟨qa, rfl, List.mem_cons_self _ _, ?_⟩
      intro q hq
      rcases List.mem_singleton.mp hq with h
      cases h; exact le_refl _
    | Px.val qa, b :: t2 =>
      have hne : (b :: t2) ≠ [] := by simp
      have hnn2 : ∀ p ∈ b :: t2, p ≠ Px.nan := fun p hp =>
        hnn p (List.mem_cons_of_mem _ hp)
      rcases ih hne hnn2 with ⟨M, hM, hMmem, hMub⟩
      refine ⟨max qa M, ?_, ?_, ?_⟩
      · show pxMax (Px.val qa) (pxListMax (b :: t2)) = Px.val (max qa M)
        rw [hM]; rfl
      · rcases le_total qa M with h | h
        · rw [max_eq_right h]; exact List.mem_cons_of_mem _ hMmem
        · rw [max_eq_left h]; exact List.mem_cons_self _ _
      · intro q hq
        rcases List.mem_cons.mp hq with h | h
        · cases h; exact le_max_left _ _
        · exact le_trans (hMub q h) (le_max_right _ _)

theorem boolFilter_map_map {α β : Type} (f : α → β) (p : α → Bool) :
    ∀ l : List α, boolFilter (l.map f) (l.map p) = (l.filter p).map f := by
  intro l
  induction l with
  | nil => rfl
  | cons a t ih =>
    simp only [List.map_cons, boolFilter, List.zip_cons_cons, List.filter_cons]
    cases hp : p a <;>
      simp only [boolFilter, List.filter_cons, hp] at ih ⊢ <;>
      simp [ih]

theorem boolFilter_map_self {α : Type} (p : α → Bool) (l : List α) :
    boolFilter l (l.map p) = l.filter p := by
  have h := boolFilter_map_map id p l
  simpa using h

theorem zipWith_or_map {α : Type} (p q : α → Bool) (l : List α) :
    List.zipWith (fun a b => a || b) (l.map p) (l.map q) =
      l.map (fun a => p a || q a) := by
  rw [List.zipWith_map]
  induction l with
  | nil => rfl
  | cons a t ih => simp [ih]

theorem pxGtQ_iff {p : Px} {t : ℚ} : pxGtQ p t = true ↔ ∃ q, p = Px.val q ∧ t < q := by
  cases p with
  | nan => simp [pxGtQ]
  | val q =>
    simp only [pxGtQ, decide_eq_true_iff]
    constructor
    · exact fun h => ⟨q, rfl, h⟩
    · rintro ⟨q2, heq, h⟩; cases heq; exact h

theorem all_map_het {α β : Type} (f : α → β) (p : β → Bool) :
    ∀ l : List α, (l.map f).all p = l.all (fun a => p (f a)) := by
  intro l
  induction l with
  | nil => rfl
  | cons a t ih => simp [ih]

theorem filter_cc_core_fst (regions : List Region) (spots : List (ℤ × ℤ × ℤ))
    (ma mn : ℤ) (fac : ℚ) :
    (filter_cc_core regions spots ma mn fac).1 =
      (regions.filter (fun r => decide (ma < (r.area : ℤ)))).filter
        (fun r => decide (mn < ((countIn spots r.bbox : ℤ))) ||
          pxGtP r.max_intensity (pxScale fac (npMedian
            ((regions.filter (fun r2 => decide (ma < (r2.area : ℤ)))).map
              (fun r2 => r2.max_intensity))))) := by
  unfold filter_cc_core
  simp only [List.map_map, boolFilter_map_self, boolFilter_map_map, zipWith_or_map,
    Function.comp_def]
  split
  case isTrue h =>
    rw [List.length_eq_zero.mp h]
    rfl
  case isFalse h => rfl

/-! ## Claims -/

/-- Claim C2 (code bug): when no region survives the hard `area > min_area`
prefilter, the source returns an empty `(0, 2)`-shaped spots-outside array —
not the entire original spot list as its own contract (spots outside the
regions, shape `(nb_spots, 3)`) and the spec describe.  Evaluating the
embedded body at a failing input: one region of area 2 against
`min_area = 5` and one spot yields `([], [])`, with the second component
different from the original spot list. -/
theorem filter_cc_empty_prefilter_eval :
    filter_cc_core [regSmall2] [(1, 2, 3)] 5 1 2 = ([], []) ∧
    (filter_cc_core [regSmall2] [(1, 2, 3)] 5 1 2).2 ≠ [(1, 2, 3)] := by
  decide

/-- Claim C3: an area-surviving region is kept iff its bounding box encloses
strictly more than `min_nb_spots` spots or its max intensity strictly
exceeds the median of the area-surviving max intensities times
`min_intensity_factor`; a region with `area ≤ min_area` is never kept, and
the median ranges over the area-surviving regions only. -/
theorem filter_cc_kept_iff (regions : List Region) (spots : List (ℤ × ℤ × ℤ))
    (ma mn : ℤ) (fac : ℚ) (r : Region) :
    r ∈ (filter_cc_core regions spots ma mn fac).1 ↔
      (r ∈ regions ∧ ma < (r.area : ℤ) ∧
        (mn < (countIn spots r.bbox : ℤ) ∨
          pxGtP r.max_intensity (pxScale fac (npMedian
            ((regions.filter (fun r2 => decide (ma < (r2.area : ℤ)))).map
              (fun r2 => r2.max_intensity)))) = true)) := by
  rw [filter_cc_core_fst, List.mem_filter, List.mem_filter]
  simp only [Bool.or_eq_true, decide_eq_true_iff]
  tauto

/-- Claim C4 (amended): provided at least one region survives the area
prefilter, the spots-outside output consists exactly of the original spots
whose coordinates lie in none of the kept regions' bounding boxes, under the
inclusive test `min ≤ coord ≤ max` on every axis.  (Without that proviso the
claim fails: the no-survivor early return yields an empty array instead of
the full spot list — see the counterexample.) -/
theorem filter_cc_spots_outside (regions : List Region) (spots : List (ℤ × ℤ × ℤ))
    (ma mn : ℤ) (fac : ℚ)
    (h : regions.filter (fun r => decide (ma < (r.area : ℤ))) ≠ []) :
    (filter_cc_core regions spots ma mn fac).2 =
      spots.filter (fun s =>
        ((filter_cc_core regions spots ma mn fac).1).all
          (fun r => ! inBoxB r.bbox s)) := by
  rw [filter_cc_core_fst]
  unfold filter_cc_core
  simp only [List.map_map, boolFilter_map_self, boolFilter_map_map, zipWith_or_map,
    Function.comp_def]
  rw [if_neg (by simpa [List.length_eq_zero] using h)]
  apply List.filter_congr
  intro s _
  rw [all_map_het]

/-- Witness for C4: a surviving region of area 9 keeps the spot `(1,1,1)`
inside its box and leaves `(5,5,5)` outside. -/
theorem filter_cc_spots_outside_w :
    ([regBig].filter (fun r => decide ((3 : ℤ) < (r.area : ℤ))) ≠ []) ∧
    (filter_cc_core [regBig] [(1, 1, 1), (5, 5, 5)] 3 0 1).2 =
      [(1, 1, 1), (5, 5, 5)].filter (fun s =>
        ((filter_cc_core [regBig] [(1, 1, 1), (5, 5, 5)] 3 0 1).1).all
          (fun r => ! inBoxB r.bbox s)) :=
  ⟨by decide, filter_cc_spots_outside [regBig] [(1, 1, 1), (5, 5, 5)] 3 0 1 (by decide)⟩

/-- Counterexample for C4 as stated: with no area-surviving region the kept
list is empty, so the claim predicts the full spot list, but the early
return yields the empty array. -/
theorem filter_cc_spots_outside_cex :
    ¬ ((filter_cc_core [regSmall] [(0, 0, 1)] 5 0 1).2 =
       [(0, 0, 1)].filter (fun s =>
         ((filter_cc_core [regSmall] [(0, 0, 1)] 5 0 1).1).all
           (fun r => ! inBoxB r.bbox s))) := by
  decide

/-- Claim C8: for a valid image (the validation succeeds, so pixels carry no
NaN), `local_maximum_detection` returns the mask in which an in-range pixel
is marked iff its value is greater than or equal to every in-range pixel of
the centred hyper-cubic window of size `2*minimum_distance + 1` around it
(reflexive equality, so whole plateaus are marked), the mask has the image's
shape, and `minimum_distance = 0` marks every pixel. -/
theorem local_maximum_detection_spec (img : NDImage) (d : ℕ)
    (h : check_array img [2, 3] suppDtypes false = true) :
    local_maximum_detection img d = Except.ok (ndLocalMax img.arr d) ∧
    IsLocalMaxMask img.arr d (ndLocalMax img.arr d) := by
  have hnn : ndHasNan img.arr = false := by
    unfold check_array at h
    simp only [Bool.and_eq_true, Bool.false_or] at h
    simpa using h.2
  have hval : ∀ c, InRange img.arr.shape c → ∃ q, img.arr.val c = Px.val q := by
    intro c hc
    have hmem : c ∈ gridIdx img.arr.shape := mem_gridIdx.mpr hc
    unfold ndHasNan at hnn
    rw [List.any_eq_false] at hnn
    have hpn := hnn c hmem
    cases hv : img.arr.val c with
    | nan => rw [hv] at hpn; simp [pxIsNan] at hpn
    | val q => exact ⟨q, rfl⟩
  have hmain : ∀ c, InRange img.arr.shape c →
      ((ndLocalMax img.arr d).val c = true ↔
        ∀ q, InRange img.arr.shape q → ChebClose d c q →
          pxLe (img.arr.val q) (img.arr.val c) = true) := by
    intro c hc
    have hclen : c.length = img.arr.shape.length := (List.Forall₂.length_eq hc).symm
    have hcwin : c ∈ winIdx img.arr.shape c d := by
      refine (mem_winIdx _ _ _ _ hclen).mpr ⟨hc, ?_⟩
      exact List.forall₂_same.mpr (fun x _ => ⟨Nat.le_add_right x d, Nat.le_add_right x d⟩)
    obtain ⟨qc, hqc⟩ := hval c hc
    have hvalsne : (winIdx img.arr.shape c d).map img.arr.val ≠ [] :=
      List.ne_nil_of_mem (List.mem_map_of_mem _ hcwin)
    have hvalsnn : ∀ p ∈ (winIdx img.arr.shape c d).map img.arr.val, p ≠ Px.nan := by
      intro p hp
      rcases List.mem_map.mp hp with ⟨w, hw, rfl⟩
      have hwin := (mem_winIdx _ _ _ _ hclen).mp hw
      obtain ⟨qw, hqw⟩ := hval w hwin.1
      rw [hqw]
      simp
    obtain ⟨M, hMeq, hMmem, hMub⟩ := pxListMax_spec _ hvalsne hvalsnn
    show pxEq (img.arr.val c) (pxListMax ((winIdx img.arr.shape c d).map img.arr.val)) = true ↔ _
    rw [hMeq, hqc]
    constructor
    · intro heq q hq hcq
      have hqcM : qc = M := by simpa [pxEq] using heq
      obtain ⟨qq, hqq⟩ := hval q hq
      have hqwin : q ∈ winIdx img.arr.shape c d := (mem_winIdx _ _ _ _ hclen).mpr ⟨hq, hcq⟩
      have hqmem : Px.val qq ∈ (winIdx img.arr.shape c d).map img.arr.val := by
        rw [← hqq]
        exact List.mem_map_of_mem _ hqwin
      have hle := hMub qq hqmem
      rw [hqq]
      simp only [pxLe, decide_eq_true_iff]
      exact hle.trans_eq hqcM.symm
    · intro hall
      rcases List.mem_map.mp hMmem with ⟨w, hw, hwv⟩
      have hwin := (mem_winIdx _ _ _ _ hclen).mp hw
      have hMle : M ≤ qc := by
        have hp := hall w hwin.1 hwin.2
        rw [hwv] at hp
        simpa [pxLe] using hp
      have hqcle : qc ≤ M := by
        refine hMub qc ?_
        rw [← hqc]
        exact List.mem_map_of_mem _ hcwin
      simp only [pxEq, decide_eq_true_iff]
      exact le_antisymm hqcle hMle
  refine ⟨by simp [local_maximum_detection, h], ?_⟩
  unfold IsLocalMaxMask
  refine ⟨rfl, hmain, ?_⟩
  rintro rfl c hc
  refine (hmain c hc).mpr ?_
  intro q hq hcq
  have hcqe := chebClose_zero_eq hcq
  subst hcqe
  obtain ⟨qc, hqc⟩ := hval c hc
  rw [hqc]
  simp [pxLe]

/-- Witness for C8 at a concrete valid 2×2 image with distance 1. -/
theorem local_maximum_detection_spec_w :
    check_array img22 [2, 3] suppDtypes false = true ∧
    (local_maximum_detection img22 1 = Except.ok (ndLocalMax img22.arr 1) ∧
     IsLocalMaxMask img22.arr 1 (ndLocalMax img22.arr 1)) :=
  ⟨by decide, local_maximum_detection_spec img22 1 (by decide)⟩

/-- Claim C9: on a valid image and a mask of the image's shape,
`spots_thresholding` succeeds, and a coordinate is returned iff it is in
range, the local-maximum mask holds there and the pixel's value in the
original image strictly exceeds the threshold — so no returned coordinate
has value `≤ threshold`. -/
theorem spots_thresholding_spec (img : NDImage) (σ : SigmaV) (mask : NDArr Bool)
    (t : ThreshV)
    (h : check_array img [2, 3] suppDtypes false = true)
    (hs : mask.shape = img.arr.shape) :
    ∃ rv, spots_thresholding img σ mask t =
        Except.ok (ndNonzero (combineMask mask img.arr (tVal t)), rv,
          combineMask mask img.arr (tVal t)) ∧
      ∀ c, c ∈ ndNonzero (combineMask mask img.arr (tVal t)) ↔
        (InRange img.arr.shape c ∧ mask.val c = true ∧
          ∃ q, img.arr.val c = Px.val q ∧ tVal t < q) := by
  have hndim : mask.ndim ∈ [2, 3] := by
    unfold check_array at h
    simp only [Bool.and_eq_true, decide_eq_true_iff] at h
    show mask.shape.length ∈ [2, 3]
    rw [hs]
    exact h.1.1
  refine ⟨(match σ with
    | SigmaV.scalar q => RadiusV.scalar img.arr.ndim q
    | SigmaV.perAxis l => RadiusV.perAxis img.arr.ndim l), ?_, ?_⟩
  · unfold spots_thresholding
    rw [if_neg (by simp [h]), if_neg (by simp [hndim]), if_neg (by simp [hs])]
  · intro c
    show c ∈ (gridIdx (combineMask mask img.arr (tVal t)).shape).filter _ ↔ _
    rw [List.mem_filter]
    show c ∈ gridIdx mask.shape ∧ (mask.val c && pxGtQ (img.arr.val c) (tVal t)) = true ↔ _
    rw [hs, mem_gridIdx, Bool.and_eq_true, pxGtQ_iff]

/-- Witness for C9 at a concrete valid 2×2 image, all-true mask and integer
threshold 4: the returned coordinates are exactly those of the pixels 5 and 7. -/
theorem spots_thresholding_spec_w :
    check_array img22 [2, 3] suppDtypes false = true ∧
    mTrue22.shape = img22.arr.shape ∧
    ∃ rv, spots_thresholding img22 (SigmaV.scalar 1) mTrue22 (ThreshV.int 4) =
        Except.ok (ndNonzero (combineMask mTrue22 img22.arr (tVal (ThreshV.int 4))), rv,
          combineMask mTrue22 img22.arr (tVal (ThreshV.int 4))) ∧
      ∀ c, c ∈ ndNonzero (combineMask mTrue22 img22.arr (tVal (ThreshV.int 4))) ↔
        (InRange img22.arr.shape c ∧ mTrue22.val c = true ∧
          ∃ q, img22.arr.val c = Px.val q ∧ tVal (ThreshV.int 4) < q) :=
  ⟨by decide, rfl,
   spots_thresholding_spec img22 (SigmaV.scalar 1) mTrue22 (ThreshV.int 4) (by decide) rfl⟩

/-- Claim C5 (amended): the six entry points `log_lm`,
`local_maximum_detection`, `spots_thresholding`, `log_cc`, `get_cc` and
`filter_cc` validate their image argument first (each with its own
`allow_nan` setting) and fail fast with a validation error on an invalid
image; `compute_snr` and `from_threshold_to_snr`, however, perform no
validation of their own (see the counterexample theorem). -/
theorem entrypoints_validate :
    (∀ (logF : SigmaV → NDImage → NDImage) (img : NDImage) (σ : SigmaV)
        (t : ThreshV) (d : ℕ),
      check_array img [2, 3] suppDtypes false = false →
      log_lm logF img σ t d = Except.error Err.validationError) ∧
    (∀ (img : NDImage) (d : ℕ),
      check_array img [2, 3] suppDtypes false = false →
      local_maximum_detection img d = Except.error Err.validationError) ∧
    (∀ (img : NDImage) (σ : SigmaV) (mask : NDArr Bool) (t : ThreshV),
      check_array img [2, 3] suppDtypes false = false →
      spots_thresholding img σ mask t = Except.error Err.validationError) ∧
    (∀ (logF : SigmaV → NDImage → NDImage) (lblF : NDArr Bool → NDArr ℤ)
        (img : NDImage) (σ : SigmaV) (t : ThreshV),
      check_array img [2, 3] suppDtypes false = false →
      log_cc logF lblF img σ t = Except.error Err.validationError) ∧
    (∀ (lblF : NDArr Bool → NDArr ℤ) (img : NDImage) (t : ThreshV),
      check_array img [2, 3] suppDtypes true = false →
      get_cc lblF img t = Except.error Err.validationError) ∧
    (∀ (rpF : NDArr ℤ → NDArr Px → List Region) (img : NDImage) (cc : NDArr ℤ)
        (spots : List (ℤ × ℤ × ℤ)) (ma mn : ℤ) (fac : ℚ),
      check_array img [2, 3] suppDtypes true = false →
      filter_cc rpF img cc spots ma mn fac = Except.error Err.validationError) := by
  refine ⟨?_, ?_, ?_, ?_, ?_, ?_⟩
  · intro logF img σ t d h
    simp [log_lm, h]
  · intro img d h
    simp [local_maximum_detection, h]
  · intro img σ mask t h
    simp [spots_thresholding, h]
  · intro logF lblF img σ t h
    simp [log_cc, h]
  · intro lblF img t h
    simp [get_cc, h]
  · intro rpF img cc spots ma mn fac h
    simp [filter_cc, h]

/-- Witness for C5 at a concrete invalid image (unsupported dtype int64),
instantiating all six validating entry points. -/
theorem entrypoints_validate_w :
    check_array imgBad [2, 3] suppDtypes false = false ∧
    check_array imgBad [2, 3] suppDtypes true = false ∧
    log_lm (fun _ i => i) imgBad (SigmaV.scalar 1) (ThreshV.int 2) 1 =
      Except.error Err.validationError ∧
    local_maximum_detection imgBad 1 = Except.error Err.validationError ∧
    spots_thresholding imgBad (SigmaV.scalar 1) mTrue22 (ThreshV.int 2) =
      Except.error Err.validationError ∧
    log_cc (fun _ i => i) (fun m => ⟨m.shape, fun _ => 0⟩) imgBad (SigmaV.scalar 1)
      (ThreshV.int 2) = Except.error Err.validationError ∧
    get_cc (fun m => ⟨m.shape, fun _ => 0⟩) imgBad (ThreshV.int 2) =
      Except.error Err.validationError ∧
    filter_cc (fun _ _ => []) imgBad ⟨[2, 2], fun _ => 0⟩ [] 0 0 1 =
      Except.error Err.validationError :=
  ⟨by decide, by decide,
   entrypoints_validate.1 (fun _ i => i) imgBad (SigmaV.scalar 1) (ThreshV.int 2) 1 (by decide),
   entrypoints_validate.2.1 imgBad 1 (by decide),
   entrypoints_validate.2.2.1 imgBad (SigmaV.scalar 1) mTrue22 (ThreshV.int 2) (by decide),
   entrypoints_validate.2.2.2.1 (fun _ i => i) (fun m => ⟨m.shape, fun _ => 0⟩) imgBad
     (SigmaV.scalar 1) (ThreshV.int 2) (by decide),
   entrypoints_validate.2.2.2.2.1 (fun m => ⟨m.shape, fun _ => 0⟩) imgBad (ThreshV.int 2)
     (by decide),
   entrypoints_validate.2.2.2.2.2 (fun _ _ => []) imgBad ⟨[2, 2], fun _ => 0⟩ [] 0 0 1
     (by decide)⟩

/-- Counterexample for C5 as stated: `from_threshold_to_snr` is a public
entry point of the module, and on an image carrying NaN — invalid for every
NaN-disallowing entry point — it raises no validation error and returns a
result. -/
theorem from_threshold_no_validation_cex :
    check_array imgNaN [2, 3] suppDtypes false = false ∧
    from_threshold_to_snr imgNaN (SigmaV.perAxis [1, 1]) (MaskArg.mask mFalse3)
      (ThreshV.int 0) 3 = Except.ok [] := by
  constructor
  · decide
  · rfl

/-- Claim C10 (amended): once at least one spot survives the combined mask,
`from_threshold_to_snr` fails on a 2-d image (scipy rejects the 3-component
kernel) and on a scalar sigma (`sigma[0]` on a number), and the no-spot
early return precedes every such operation, so with no surviving spot the
function returns `[]` for any image dimensionality and sigma shape (see the
counterexample to the unamended claim). -/
theorem from_threshold_dim_requirements :
    (∀ (img : NDImage) (σ : SigmaV) (m : NDArr Bool) (t : ℤ) (f : ℚ),
      m.shape = img.arr.shape →
      countTrue ⟨m.shape, fun c => m.val c && pxGtP (img.arr.val c) (Px.val (t : ℚ))⟩ = 0 →
      from_threshold_to_snr img σ (MaskArg.mask m) (ThreshV.int t) f = Except.ok []) ∧
    (∀ (img : NDImage) (ny nx : ℕ) (m : NDArr Bool) (σ0 σ1 : ℚ) (rest : List ℚ)
        (t : ℤ) (f : ℚ),
      img.arr.shape = [ny, nx] →
      m.shape = img.arr.shape →
      ¬ (countTrue ⟨m.shape, fun c => m.val c && pxGtP (img.arr.val c) (Px.val (t : ℚ))⟩ = 0) →
      from_threshold_to_snr img (SigmaV.perAxis (σ0 :: σ1 :: rest)) (MaskArg.mask m)
        (ThreshV.int t) f = Except.error Err.runtimeError) ∧
    (∀ (img : NDImage) (q : ℚ) (m : NDArr Bool) (t : ℤ) (f : ℚ),
      m.shape = img.arr.shape →
      ¬ (countTrue ⟨m.shape, fun c => m.val c && pxGtP (img.arr.val c) (Px.val (t : ℚ))⟩ = 0) →
      from_threshold_to_snr img (SigmaV.scalar q) (MaskArg.mask m) (ThreshV.int t) f =
        Except.error Err.typeError) := by
  refine ⟨?_, ?_, ?_⟩
  · intro img σ m t f hs hc
    rw [hs] at hc
    simp [from_threshold_to_snr, Except.bind, hs, hc]
  · intro img ny nx m σ0 σ1 rest t f himg hs hc
    rw [hs, himg] at hc
    simp [from_threshold_to_snr, Except.bind, hs, hc, himg]
  · intro img q m t f hs hc
    rw [hs] at hc
    simp [from_threshold_to_snr, Except.bind, hs, hc]

/-- Witness for C10 at concrete inputs: a 2-d image with two surviving spots
fails with the scipy rank error; a 3-d image with one surviving spot and a
scalar sigma fails with the `sigma[0]` type error. -/
theorem from_threshold_dim_requirements_w :
    img22.arr.shape = [2, 2] ∧
    mTrue22.shape = img22.arr.shape ∧
    ¬ (countTrue ⟨mTrue22.shape,
        fun c => mTrue22.val c && pxGtP (img22.arr.val c) (Px.val ((4 : ℤ) : ℚ))⟩ = 0) ∧
    from_threshold_to_snr img22 (SigmaV.perAxis [1, 1]) (MaskArg.mask mTrue22)
      (ThreshV.int 4) 3 = Except.error Err.runtimeError ∧
    mTrue3.shape = img111.arr.shape ∧
    ¬ (countTrue ⟨mTrue3.shape,
        fun c => mTrue3.val c && pxGtP (img111.arr.val c) (Px.val ((4 : ℤ) : ℚ))⟩ = 0) ∧
    from_threshold_to_snr img111 (SigmaV.scalar 1) (MaskArg.mask mTrue3)
      (ThreshV.int 4) 3 = Except.error Err.typeError :=
  ⟨rfl, rfl, by decide,
   from_threshold_dim_requirements.2.1 img22 2 2 mTrue22 1 1 [] 4 3 rfl rfl (by decide),
   rfl, by decide,
   from_threshold_dim_requirements.2.2 img111 1 mTrue3 4 3 rfl (by decide)⟩

/-- Counterexample for C10 as stated: a call on a 2-d image with a scalar
sigma does not fail — with no spot above the threshold it returns the empty
list, because the no-spot early return precedes the 3-d-specific code. -/
theorem from_threshold_dim_requirements_cex :
    from_threshold_to_snr img22 (SigmaV.scalar 1) (MaskArg.mask mTrue22)
      (ThreshV.int 100) 3 = Except.ok [] := by
  rfl

/-- Claim C1 (code bug): `compute_snr` never reproduces the composition the
spec describes.  It calls `log_lm(image, sigma, minimum_distance)` — putting
`minimum_distance` in `log_lm`'s `threshold` slot — and passes `log_lm`'s
`(spots, radius)` return value as the `mask` of `from_threshold_to_snr`,
which fails on `mask & (image > threshold)`: every call errors.  By
contrast, the claimed pipeline (LoG filter, local-maximum mask, SNR from the
mask) succeeds, e.g. on a valid 1×1×1 image. -/
theorem compute_snr_mistypes :
    (∀ (logF : SigmaV → NDImage → NDImage) (img : NDImage) (σ : SigmaV) (d : ℕ)
        (t : ThreshV) (f : ℚ),
      ∃ e, compute_snr logF img σ d t f = Except.error e) ∧
    from_threshold_to_snr img111 (SigmaV.perAxis [1, 1])
      (MaskArg.mask (ndLocalMax img111.arr 1)) (ThreshV.int 2000) 3 = Except.ok [] := by
  constructor
  · intro logF img σ d t f
    unfold compute_snr
    cases hl : log_lm logF img σ (ThreshV.int (d : ℤ)) 1 with
    | error e => exact ⟨e, by simp [Except.bind, hl]⟩
    | ok sr =>
      cases t with
      | int z =>
        exact ⟨Err.typeError, by simp [Except.bind, hl, from_threshold_to_snr]⟩
      | float q =>
        by_cases hg : gridIdx img.arr.shape = []
        · exact ⟨Err.valueError, by simp [Except.bind, hl, from_threshold_to_snr, hg]⟩
        · exact ⟨Err.typeError, by simp [Except.bind, hl, from_threshold_to_snr, hg]⟩
  · rfl

theorem nanmeanL_eq_nan_iff (l : List Px) : nanmeanL l = Px.nan ↔ nonNanL l = [] := by
  by_cases h : nonNanL l = []
  · simp [nanmeanL, h]
  · have h2 : ¬ ((nonNanL l).length = 0) := by simpa [List.length_eq_zero] using h
    simp [nanmeanL, h2, h]

theorem nanvarL_eq_nan_iff (l : List Px) : nanvarL l = Px.nan ↔ nonNanL l = [] := by
  by_cases h : nonNanL l = []
  · simp [nanvarL, h]
  · have h2 : ¬ ((nonNanL l).length = 0) := by simpa [List.length_eq_zero] using h
    simp [nanvarL, h2, h]

theorem mkSnr_eq_nan_iff (me va : Px) :
    mkSnr me va = SnrVal.nan ↔
      (me = Px.nan ∨ va = Px.nan ∨ (me = Px.val 0 ∧ va = Px.val 0)) := by
  cases me with
  | nan => simp [mkSnr]
  | val m =>
    cases va with
    | nan => simp [mkSnr]
    | val v =>
      by_cases hv : v = 0
      · subst hv
        rcases lt_trichotomy m 0 with hm | hm | hm
        · simp [mkSnr, not_lt.mpr hm.le, hm, ne_of_lt hm]
        · subst hm; simp [mkSnr]
        · simp [mkSnr, hm, ne_of_gt hm]
      · simp [mkSnr, hv]

/-- Claim C7 (amended): one SNR value per detected spot, index-aligned with
the coordinate order; a spot strictly closer than the noise radius to any
volume boundary yields NaN (and the loop continues — the embedding is
total); any other spot yields the windowed statistic
`nanmean(signal)/nanstd(noise)`, which itself is NaN exactly when the signal
window has no non-NaN pixel, the noise window has no non-NaN pixel after the
exclusion-mask and central-block blanking, or both the mean and the
deviation vanish (0/0) — so, against the unamended claim, a spot exactly
`noise_radius` from every boundary need not be finite (see the
counterexample). -/
theorem snr_per_spot (a : NDArr Px) (m2 : NDArr Bool) (nz ny nx : ℕ)
    (zR yxR zN yxN : ℤ) :
    (snrCore a m2 nz ny nx zR yxR zN yxN).length = (ndNonzero m2).length ∧
    (∀ (i : ℕ) (z y x : ℕ), (ndNonzero m2)[i]? = some [z, y, x] →
      ((bOKb nz ny nx zN yxN z y x = false →
        (snrCore a m2 nz ny nx zR yxR zN yxN)[i]? = some SnrVal.nan) ∧
       (bOKb nz ny nx zN yxN z y x = true →
        ((snrCore a m2 nz ny nx zR yxR zN yxN)[i]? = some SnrVal.nan ↔
          (nonNanL (signalVals a.val nz ny nx z y x zR yxR) = [] ∨
           nonNanL (noiseVals a.val m2.val nz ny nx z y x zR yxR zN yxN) = [] ∨
           (nanmeanL (signalVals a.val nz ny nx z y x zR yxR) = Px.val 0 ∧
            nanvarL (noiseVals a.val m2.val nz ny nx z y x zR yxR zN yxN) = Px.val 0)))))) := by
  constructor
  · exact List.length_map _ _
  · intro i z y x hi
    have hmap : (snrCore a m2 nz ny nx zR yxR zN yxN)[i]? =
        some (snrOne a.val m2.val nz ny nx zR yxR zN yxN [z, y, x]) := by
      unfold snrCore
      rw [List.getElem?_map, hi]
      rfl
    constructor
    · intro hb
      rw [hmap]
      simp [snrOne, hb]
    · intro hb
      rw [hmap]
      simp only [snrOne, hb, if_true, Option.some_inj]
      rw [mkSnr_eq_nan_iff, nanmeanL_eq_nan_iff, nanvarL_eq_nan_iff]

/-- Witness for C7: the single spot of a 1×1×1 all-true mask with all radii
zero lies exactly the noise radius from every boundary; the characterization
applies and in fact yields NaN because the central blanking empties the
noise window. -/
theorem snr_per_spot_w :
    (ndNonzero mTrue3)[0]? = some [0, 0, 0] ∧
    bOKb 1 1 1 0 0 0 0 0 = true ∧
    ((snrCore a7 mTrue3 1 1 1 0 0 0 0)[0]? = some SnrVal.nan ↔
      (nonNanL (signalVals a7.val 1 1 1 0 0 0 0 0) = [] ∨
       nonNanL (noiseVals a7.val mTrue3.val 1 1 1 0 0 0 0 0 0 0) = [] ∨
       (nanmeanL (signalVals a7.val 1 1 1 0 0 0 0 0) = Px.val 0 ∧
        nanvarL (noiseVals a7.val mTrue3.val 1 1 1 0 0 0 0 0 0 0) = Px.val 0))) :=
  ⟨rfl, rfl, ((snr_per_spot a7 mTrue3 1 1 1 0 0 0 0).2 0 0 0 0 rfl).2 rfl⟩

/-- Counterexample for C7 as stated: a spot exactly `noise_radius` pixels
from every boundary (radius 0 in a 1×1×1 volume) yields NaN, not a finite
value — the noise window is entirely blanked, so `np.nanstd` is NaN. -/
theorem snr_boundary_cex :
    snrCore a7 mTrue3 1 1 1 0 0 0 0 = [SnrVal.nan] ∧
    bOKb 1 1 1 0 0 0 0 0 = true := by
  decide

/-- Claim C6 (amended): the four radii of the SNR estimator are the
truncating `int()` casts — the floor, for the nonnegative inputs — of
`sqrt(ndim) * sigma[0]`, `sqrt(ndim) * sigma[1]` and their products with
`neighbor_factor` (z from `sigma[0]`, y and x sharing `sigma[1]`), not the
round-to-nearest values the claim states; each radius `k` satisfies
`k ≤ sqrt(ndim)*sigma < k + 1`. -/
theorem snr_radii_floor (n : ℕ) (s0 s1 fc : ℚ)
    (h0 : 0 ≤ s0) (h1 : 0 ≤ s1) (h2 : 0 ≤ fc) :
    snrRadii n s0 s1 fc =
      (⌊Real.sqrt (n : ℝ) * (s0 : ℝ)⌋, ⌊Real.sqrt (n : ℝ) * (s1 : ℝ)⌋,
       ⌊Real.sqrt (n : ℝ) * (s0 : ℝ) * (fc : ℝ)⌋,
       ⌊Real.sqrt (n : ℝ) * (s1 : ℝ) * (fc : ℝ)⌋) ∧
    ((⌊Real.sqrt (n : ℝ) * (s0 : ℝ)⌋ : ℝ) ≤ Real.sqrt (n : ℝ) * (s0 : ℝ) ∧
      Real.sqrt (n : ℝ) * (s0 : ℝ) < ⌊Real.sqrt (n : ℝ) * (s0 : ℝ)⌋ + 1) := by
  have hs : (0 : ℝ) ≤ Real.sqrt (n : ℝ) := Real.sqrt_nonneg _
  have h0r : (0 : ℝ) ≤ (s0 : ℝ) := by exact_mod_cast h0
  have h1r : (0 : ℝ) ≤ (s1 : ℝ) := by exact_mod_cast h1
  have h2r : (0 : ℝ) ≤ (fc : ℝ) := by exact_mod_cast h2
  refine ⟨?_, Int.floor_le _, Int.lt_floor_add_one _⟩
  unfold snrRadii pyInt
  simp only [if_pos (mul_nonneg hs h0r), if_pos (mul_nonneg hs h1r),
    if_pos (mul_nonneg (mul_nonneg hs h0r) h2r),
    if_pos (mul_nonneg (mul_nonneg hs h1r) h2r)]

/-- Witness for C6 at `ndim = 3`, `sigma = (3/2, 3/2)`, factor 3. -/
theorem snr_radii_floor_w :
    (0 ≤ (3/2 : ℚ)) ∧ (0 ≤ (3 : ℚ)) ∧
    (snrRadii 3 (3/2) (3/2) 3 =
      (⌊Real.sqrt ((3 : ℕ) : ℝ) * (((3/2 : ℚ)) : ℝ)⌋,
       ⌊Real.sqrt ((3 : ℕ) : ℝ) * (((3/2 : ℚ)) : ℝ)⌋,
       ⌊Real.sqrt ((3 : ℕ) : ℝ) * (((3/2 : ℚ)) : ℝ) * (((3 : ℚ)) : ℝ)⌋,
       ⌊Real.sqrt ((3 : ℕ) : ℝ) * (((3/2 : ℚ)) : ℝ) * (((3 : ℚ)) : ℝ)⌋) ∧
     ((⌊Real.sqrt ((3 : ℕ) : ℝ) * (((3/2 : ℚ)) : ℝ)⌋ : ℝ) ≤
        Real.sqrt ((3 : ℕ) : ℝ) * (((3/2 : ℚ)) : ℝ) ∧
      Real.sqrt ((3 : ℕ) : ℝ) * (((3/2 : ℚ)) : ℝ) <
        ⌊Real.sqrt ((3 : ℕ) : ℝ) * (((3/2 : ℚ)) : ℝ)⌋ + 1)) :=
  ⟨by norm_num, by norm_num,
   snr_radii_floor 3 (3/2) (3/2) 3 (by norm_num) (by norm_num) (by norm_num)⟩

/-- Counterexample for C6 as stated: at `ndim = 3`, `sigma[0] = 3/2` the
z signal radius is `int(sqrt(3)*1.5) = int(2.598...) = 2`, while rounding to
the nearest integer gives 3. -/
theorem snr_radii_not_round_cex :
    (snrRadii 3 (3/2) (3/2) 3).1 = 2 ∧
    round (Real.sqrt ((3 : ℕ) : ℝ) * (((3/2 : ℚ)) : ℝ)) = 3 := by
  have hcast : (((3/2 : ℚ)) : ℝ) = 3/2 := by norm_num
  have hn : ((3 : ℕ) : ℝ) = 3 := by norm_num
  have hlow : (5/3 : ℝ) ≤ Real.sqrt 3 := by
    rw [Real.le_sqrt (by norm_num) (by norm_num)]
    norm_num
  have hhigh : Real.sqrt 3 < 2 := by
    rw [Real.sqrt_lt' (by norm_num)]
    norm_num
  constructor
  · show pyInt (Real.sqrt ((3 : ℕ) : ℝ) * ((3/2 : ℚ) : ℝ)) = 2
    rw [hcast, hn]
    unfold pyInt
    rw [if_pos (by positivity)]
    rw [Int.floor_eq_iff]
    constructor
    · push_cast
      nlinarith
    · push_cast
      nlinarith
  · rw [hcast, hn, round_eq, Int.floor_eq_iff]
    constructor
    · push_cast
      nlinarith
    · push_cast
      nlinarith

end BigFish
